import Mathlib

/-!
Verification of the feed-harvesting core of `feedscraper` (file
`feedscraper/feed.py`), against its natural-language specification.

The harvesting loop `HomeFeed.browse` is embedded shallowly as a state
machine.  The Document Session is abstracted by a probe oracle
`probe : Nat → Nat → Bool`, where `probe k i = true` means the k-th
element lookup overall (0-based), made at logical position `i`, finds a
post subtree (in the source: `extractors.post_el(feed_el, i)` returns
normally), and `probe k i = false` means the lookup raises
`NoSuchElementException`.  Sleeps are timing only and are not modelled.

The outer `while scroll_fail_count < 10` loop of the source need not
terminate (an unboundedly growing feed), so the run takes fuel counting
outer-loop iterations; the Boolean returned by `browseRun` distinguishes
a genuine loop exit (the while-condition became false) from fuel
exhaustion.  The inner `while load_fail_count < 10` loop performs at
most ten probes before its condition stops it, so its fixed fuel of 11
never binds and the fuel check is unreachable.
-/

namespace Feedscraper

/-- Observable interactions of one `browse` invocation with the
Document Session, in order: the initial `scroll_to_top` (source line
148), each `scroll_to_bottom` (line 180), each element lookup
(`extractors.post_el(feed_el, i)`, lines 167 and 187) tagged with its
overall attempt index and the logical position probed, and each `yield`
of a materialized post (lines 165 and 185). -/
inductive Action where
  | scrollToTop : Action
  | scrollToBottom : Action
  | probe (attempt : Nat) (pos : Nat) : Action
  | yieldPost (pos : Nat) : Action
  deriving DecidableEq

/-- The local state of one `HomeFeed.browse` invocation (source lines
159-200): `i` is the 1-based logical post position, `post_count` the
(never incremented) found-post counter, `scroll_fail_count` and
`load_fail_count` the two retry counters.  `emitted` records the
positions yielded so far, `attempts` counts element lookups made so far
(the cursor into the probe script), `cycles` counts scroll cycles
(entries into the `except` block, each performing one
`scroll_to_bottom`), and `trace` records session interactions.
`load_fail_count` is a Python local first assigned inside the `except`
block; it starts here at 0, a value that is never read before the
`except` block overwrites it. -/
structure BrowseState where
  i : Nat
  post_count : Nat
  scroll_fail_count : Nat
  load_fail_count : Nat
  emitted : List Nat
  attempts : Nat
  cycles : Nat
  trace : List Action
  deriving DecidableEq

/-- The inner retry loop `while load_fail_count < 10` (source lines
183-198): re-probe the same position `st.i`; on success yield the post,
reset both counters to 0 and break (returning `true`); on failure
increment `load_fail_count` and retry.  The structural fuel only bounds
recursion; called with fuel 11 it always exits through the
`load_fail_count < 10` condition, exactly as the source loop does. -/
def loadLoop (probe : Nat → Nat → Bool) : Nat → BrowseState → BrowseState × Bool
  | 0, st => (st, false)
  | fuel + 1, st =>
    if st.load_fail_count < 10 then
      if probe st.attempts st.i then
        ({ st with emitted := st.emitted ++ [st.i],
                   trace := st.trace ++ [.probe st.attempts st.i, .yieldPost st.i],
                   attempts := st.attempts + 1,
                   scroll_fail_count := 0,
                   load_fail_count := 0 }, true)
      else
        loadLoop probe fuel
          { st with trace := st.trace ++ [.probe st.attempts st.i],
                    attempts := st.attempts + 1,
                    load_fail_count := st.load_fail_count + 1 }
    else (st, false)

/-- One iteration of the outer `while scroll_fail_count < 10` loop
(source lines 163-200): probe position `st.i`; on success yield the
post; on `NoSuchElementException` increment `scroll_fail_count`, set
`load_fail_count` to 0, scroll to the bottom (one scroll cycle) and run
the inner retry loop.  In every case the `finally` block then advances
`i` by exactly 1. -/
def outerStep (probe : Nat → Nat → Bool) (st : BrowseState) : BrowseState :=
  if probe st.attempts st.i then
    { st with emitted := st.emitted ++ [st.i],
              trace := st.trace ++ [.probe st.attempts st.i, .yieldPost st.i],
              attempts := st.attempts + 1,
              i := st.i + 1 }
  else
    let st1 : BrowseState :=
      { st with trace := st.trace ++ [.probe st.attempts st.i, .scrollToBottom],
                attempts := st.attempts + 1,
                scroll_fail_count := st.scroll_fail_count + 1,
                load_fail_count := 0,
                cycles := st.cycles + 1 }
    let r := loadLoop probe 11 st1
    { r.1 with i := r.1.i + 1 }

/-- The outer loop `while scroll_fail_count < 10`, with fuel counting
iterations.  Returns the final state together with `true` when the loop
exited because the condition became false (normal sequence
termination), and `false` when the fuel ran out with the condition
still true (the run was cut short, undetermined). -/
def browseRun (probe : Nat → Nat → Bool) : Nat → BrowseState → BrowseState × Bool
  | 0, st => if st.scroll_fail_count < 10 then (st, false) else (st, true)
  | fuel + 1, st =>
    if st.scroll_fail_count < 10 then browseRun probe fuel (outerStep probe st)
    else (st, true)

/-- The state of a fresh `browse` invocation just after `scroll_to_top`
(source lines 148, 159-161): logical position seeded at 1,
`post_count = 0`, `scroll_fail_count = 0`, nothing emitted, no lookups
made, no scroll cycles, and the initial scroll-to-top on the trace. -/
def initState : BrowseState :=
  { i := 1, post_count := 0, scroll_fail_count := 0, load_fail_count := 0,
    emitted := [], attempts := 0, cycles := 0, trace := [Action.scrollToTop] }

/-- Diagnostic message printed by `browse` when the top-level feed
container lookup fails (source line 154). -/
def feedMissingDiag : String := "Could not find feed element!"

/-- Outcome of one `browse` invocation: `aborted` models the fatal
pre-condition path (error message printed, `exit(1)`, source lines
151-157), `finished` the normal termination of the generator with the
list of emitted positions and the number of scroll cycles performed,
and `fuelOut` a run cut short by fuel. -/
inductive BrowseOutcome where
  | aborted (diagnostic : String) : BrowseOutcome
  | finished (emitted : List Nat) (cycles : Nat) : BrowseOutcome
  | fuelOut : BrowseOutcome
  deriving DecidableEq

/-- A whole `HomeFeed.browse` invocation: scroll to top, look up the
feed container (`feedElFound` says whether the lookup at source line
152 succeeds), then run the harvesting loop. -/
def browse (feedElFound : Bool) (probe : Nat → Nat → Bool) (fuel : Nat) : BrowseOutcome :=
  if feedElFound then
    let r := browseRun probe fuel initState
    if r.2 then BrowseOutcome.finished r.1.emitted r.1.cycles else BrowseOutcome.fuelOut
  else BrowseOutcome.aborted feedMissingDiag

/-- Two consecutive `browse` invocations on the same session.  The
source keeps no instance state across invocations: `i`, the counters
and the scroll-to-top all live inside the generator body, which is why
each invocation is the same pure function of the session's probe
responses. -/
def browseTwice (probe : Nat → Nat → Bool) (fuel : Nat) : BrowseOutcome × BrowseOutcome :=
  (browse true probe fuel, browse true probe fuel)

/-- Splitting a character sequence at every newline character, keeping
empty pieces; the auxiliary step of `splitlines`.  On an input without
newlines it yields that single piece. -/
def splitOnNl : List Char → List (List Char)
  | [] => [[]]
  | c :: cs =>
    if c = Char.ofNat 10 then [] :: splitOnNl cs
    else
      match splitOnNl cs with
      | [] => [[c]]
      | l :: ls => (c :: l) :: ls

/-- Python `str.splitlines` restricted to the newline character, over
the text's character sequence: the empty text has no lines, and a
trailing newline does not contribute a final empty line. -/
def splitlines (s : List Char) : List (List Char) :=
  if s = [] then []
  else if s.getLast? = some (Char.ofNat 10) then (splitOnNl s).dropLast
  else splitOnNl s

/-- A sidebar advertisement, `namedtuple('SidebarAd', ['text', 'link'])`
(source line 84): the first line of the element text is the ad text,
the second its link.  Texts are modelled as character sequences. -/
structure SidebarAd where
  text : List Char
  link : List Char
  deriving DecidableEq

/-- Message of the `TypeError` raised by `Feed.SidebarAd(*lst)` when
`lst` does not hold exactly two lines (source line 95). -/
def sidebarAdArityError : String :=
  "TypeError: SidebarAd takes a text line and a link line"

/-- The construction `Feed.SidebarAd(*lst)` (source line 95): succeeds
exactly when the splitlines list has exactly two entries, and raises a
`TypeError` otherwise. -/
def mkSidebarAd : List (List Char) → Except String SidebarAd
  | [t, l] => Except.ok { text := t, link := l }
  | _ => Except.error sidebarAdArityError

/-- `Feed.get_sidebar_ads` (source lines 86-97): the rendered page
state is abstracted as the list of text contents (character sequences)
of the elements matched by the advertiser XPath query (`find_elements`
returns an empty list when nothing matches).  Each text is split into
lines and unpacked into a `SidebarAd`; Python's `list(map(...))`
materializes the result left to right and the first unpacking error
aborts the call. -/
def get_sidebar_ads (adTexts : List (List Char)) : Except String (List SidebarAd) :=
  (adTexts.map splitlines).mapM mkSidebarAd

/-- Probe oracle of a Document Session on which every element lookup
fails: `findItemSubtree` never succeeds. -/
def neverFound : Nat → Nat → Bool := fun _ _ => false

/-- Probe oracle of a feed presenting exactly `n` renderable items:
lookups at positions 1..n always succeed, lookups past `n` always
fail. -/
def firstN (n : Nat) : Nat → Nat → Bool := fun _ pos => decide (pos ≤ n)

end Feedscraper
namespace Feedscraper

theorem loadLoop_i (probe : Nat → Nat → Bool) :
    ∀ (fuel : Nat) (st : BrowseState), ((loadLoop probe fuel st).1).i = st.i := by
  intro fuel
  induction fuel with
  | zero => intro st; rfl
  | succ n ih =>
    intro st
    rw [loadLoop]
    by_cases hlf : st.load_fail_count < 10
    · rw [if_pos hlf]
      cases hp : probe st.attempts st.i
      · simp only [Bool.false_eq_true, if_false]
        exact ih _
      · simp
    · rw [if_neg hlf]

theorem loadLoop_trace (probe : Nat → Nat → Bool) :
    ∀ (fuel : Nat) (st : BrowseState),
      ∃ t, ((loadLoop probe fuel st).1).trace = st.trace ++ t := by
  intro fuel
  induction fuel with
  | zero => intro st; exact ⟨[], by simp [loadLoop]⟩
  | succ n ih =>
    intro st
    rw [loadLoop]
    by_cases hlf : st.load_fail_count < 10
    · rw [if_pos hlf]
      cases hp : probe st.attempts st.i
      · simp only [Bool.false_eq_true, if_false]
        obtain ⟨t, ht⟩ := ih { st with trace := st.trace ++ [Action.probe st.attempts st.i],
                                       attempts := st.attempts + 1,
                                       load_fail_count := st.load_fail_count + 1 }
        exact ⟨Action.probe st.attempts st.i :: t, by simpa using ht⟩
      · exact ⟨[Action.probe st.attempts st.i, Action.yieldPost st.i], by simp⟩
    · rw [if_neg hlf]
      exact ⟨[], by simp⟩

end Feedscraper
namespace Feedscraper

theorem loadLoop_fail (probe : Nat → Nat → Bool) :
    ∀ (n fuel : Nat) (st : BrowseState), st.load_fail_count + n = 10 → n < fuel →
      (∀ d, d < n → probe (st.attempts + d) st.i = false) →
      ∃ tr, loadLoop probe fuel st =
        ({ st with attempts := st.attempts + n, load_fail_count := 10, trace := tr }, false) := by
  intro n
  induction n with
  | zero =>
    intro fuel st h hf _
    match fuel, hf with
    | fuel + 1, _ =>
      refine ⟨st.trace, ?_⟩
      rw [loadLoop, if_neg (by omega)]
      cases st
      simp_all
  | succ n ih =>
    intro fuel st h hf hfail
    match fuel, hf with
    | fuel + 1, hf =>
      have hlf : st.load_fail_count < 10 := by omega
      have h0 : probe st.attempts st.i = false := by simpa using hfail 0 (by omega)
      obtain ⟨tr, htr⟩ := ih fuel
        { st with trace := st.trace ++ [Action.probe st.attempts st.i],
                  attempts := st.attempts + 1,
                  load_fail_count := st.load_fail_count + 1 }
        (by simp; omega) (by omega)
        (by intro d hd
            have hx := hfail (d + 1) (by omega)
            simpa [Nat.add_assoc, Nat.add_comm 1 d] using hx)
      refine ⟨tr, ?_⟩
      rw [loadLoop, if_pos hlf, h0]
      simp only [Bool.false_eq_true, if_false]
      rw [htr]
      cases st
      simp_all
      omega

theorem loadLoop_succ (probe : Nat → Nat → Bool) :
    ∀ (m fuel : Nat) (st : BrowseState), st.load_fail_count + m < 10 → m < fuel →
      (∀ d, d < m → probe (st.attempts + d) st.i = false) →
      probe (st.attempts + m) st.i = true →
      ∃ tr, loadLoop probe fuel st =
        ({ st with emitted := st.emitted ++ [st.i], attempts := st.attempts + m + 1,
                   scroll_fail_count := 0, load_fail_count := 0, trace := tr }, true) := by
  intro m
  induction m with
  | zero =>
    intro fuel st h hf _ hsucc
    match fuel, hf with
    | fuel + 1, _ =>
      refine ⟨st.trace ++ [Action.probe st.attempts st.i, Action.yieldPost st.i], ?_⟩
      have hp : probe st.attempts st.i = true := by simpa using hsucc
      rw [loadLoop, if_pos (by omega), hp]
      simp
  | succ m ih =>
    intro fuel st h hf hfail hsucc
    match fuel, hf with
    | fuel + 1, hf =>
      have hlf : st.load_fail_count < 10 := by omega
      have h0 : probe st.attempts st.i = false := by simpa using hfail 0 (by omega)
      obtain ⟨tr, htr⟩ := ih fuel
        { st with trace := st.trace ++ [Action.probe st.attempts st.i],
                  attempts := st.attempts + 1,
                  load_fail_count := st.load_fail_count + 1 }
        (by simp; omega) (by omega)
        (by intro d hd
            have hx := hfail (d + 1) (by omega)
            simpa [Nat.add_assoc, Nat.add_comm 1 d] using hx)
        (by have hx := hsucc
            simpa [Nat.add_assoc, Nat.add_comm 1 m] using hx)
      refine ⟨tr, ?_⟩
      rw [loadLoop, if_pos hlf, h0]
      simp only [Bool.false_eq_true, if_false]
      rw [htr]
      cases st
      simp_all
      omega

end Feedscraper
namespace Feedscraper

theorem outerStep_found (probe : Nat → Nat → Bool) (st : BrowseState)
    (h : probe st.attempts st.i = true) :
    outerStep probe st =
      { st with emitted := st.emitted ++ [st.i],
                trace := st.trace ++ [Action.probe st.attempts st.i, Action.yieldPost st.i],
                attempts := st.attempts + 1,
                i := st.i + 1 } := by
  rw [outerStep, h]
  simp

theorem outerStep_cycleFail (probe : Nat → Nat → Bool) (st : BrowseState)
    (h : ∀ d, d ≤ 10 → probe (st.attempts + d) st.i = false) :
    ∃ tr, outerStep probe st =
      { st with attempts := st.attempts + 11,
                scroll_fail_count := st.scroll_fail_count + 1,
                load_fail_count := 10,
                cycles := st.cycles + 1,
                i := st.i + 1,
                trace := tr } := by
  have h0 : probe st.attempts st.i = false := by simpa using h 0 (by omega)
  rw [outerStep, h0]
  simp only [Bool.false_eq_true, if_false]
  obtain ⟨tr, htr⟩ := loadLoop_fail probe 10 11
    { st with trace := st.trace ++ [Action.probe st.attempts st.i, Action.scrollToBottom],
              attempts := st.attempts + 1,
              scroll_fail_count := st.scroll_fail_count + 1,
              load_fail_count := 0,
              cycles := st.cycles + 1 }
    (by simp) (by omega)
    (by intro d hd
        have hx := h (d + 1) (by omega)
        simpa [Nat.add_assoc, Nat.add_comm 1 d] using hx)
  exact ⟨tr, by rw [htr]⟩

theorem outerStep_innerSucc (probe : Nat → Nat → Bool) (st : BrowseState) (m : Nat)
    (hm : m ≤ 9)
    (h0 : probe st.attempts st.i = false)
    (hfail : ∀ d, 1 ≤ d → d ≤ m → probe (st.attempts + d) st.i = false)
    (hsucc : probe (st.attempts + m + 1) st.i = true) :
    ∃ tr, outerStep probe st =
      { st with emitted := st.emitted ++ [st.i],
                attempts := st.attempts + m + 2,
                scroll_fail_count := 0,
                load_fail_count := 0,
                cycles := st.cycles + 1,
                i := st.i + 1,
                trace := tr } := by
  rw [outerStep, h0]
  simp only [Bool.false_eq_true, if_false]
  obtain ⟨tr, htr⟩ := loadLoop_succ probe m 11
    { st with trace := st.trace ++ [Action.probe st.attempts st.i, Action.scrollToBottom],
              attempts := st.attempts + 1,
              scroll_fail_count := st.scroll_fail_count + 1,
              load_fail_count := 0,
              cycles := st.cycles + 1 }
    (by simp; omega) (by omega)
    (by intro d hd
        have hx := hfail (d + 1) (by omega) (by omega)
        simpa [Nat.add_assoc, Nat.add_comm 1 d] using hx)
    (by have hx := hsucc
        simpa [Nat.add_assoc, Nat.add_comm 1 m] using hx)
  refine ⟨tr, ?_⟩
  rw [htr]
  cases st
  simp_all
  omega

theorem browseRun_stop (probe : Nat → Nat → Bool) (fuel : Nat) (st : BrowseState)
    (h : 10 ≤ st.scroll_fail_count) : browseRun probe fuel st = (st, true) := by
  cases fuel with
  | zero => rw [browseRun, if_neg (by omega)]
  | succ n => rw [browseRun, if_neg (by omega)]

theorem browseRun_step (probe : Nat → Nat → Bool) (fuel : Nat) (st : BrowseState)
    (h : st.scroll_fail_count < 10) :
    browseRun probe (fuel + 1) st = browseRun probe fuel (outerStep probe st) := by
  rw [browseRun, if_pos h]

end Feedscraper
namespace Feedscraper

theorem outerStep_trace (probe : Nat → Nat → Bool) (st : BrowseState) :
    ∃ t, (outerStep probe st).trace = st.trace ++ Action.probe st.attempts st.i :: t := by
  rw [outerStep]
  cases hp : probe st.attempts st.i
  · simp only [Bool.false_eq_true, if_false]
    obtain ⟨t, ht⟩ := loadLoop_trace probe 11
      { st with trace := st.trace ++ [Action.probe st.attempts st.i, Action.scrollToBottom],
                attempts := st.attempts + 1,
                scroll_fail_count := st.scroll_fail_count + 1,
                load_fail_count := 0,
                cycles := st.cycles + 1 }
    refine ⟨Action.scrollToBottom :: t, ?_⟩
    simpa using ht
  · exact ⟨[Action.yieldPost st.i], by simp⟩

theorem browseRun_trace (probe : Nat → Nat → Bool) :
    ∀ (fuel : Nat) (st : BrowseState),
      ∃ t, ((browseRun probe fuel st).1).trace = st.trace ++ t := by
  intro fuel
  induction fuel with
  | zero =>
    intro st
    refine ⟨[], ?_⟩
    rw [browseRun]
    split <;> simp
  | succ n ih =>
    intro st
    by_cases hsfc : st.scroll_fail_count < 10
    · rw [browseRun_step probe n st hsfc]
      obtain ⟨t, ht⟩ := ih (outerStep probe st)
      obtain ⟨t', ht'⟩ := outerStep_trace probe st
      refine ⟨Action.probe st.attempts st.i :: t' ++ t, ?_⟩
      rw [ht, ht']
      simp
    · rw [browseRun_stop probe (n + 1) st (by omega)]
      exact ⟨[], by simp⟩

theorem browseRun_allFail (probe : Nat → Nat → Bool) (M : Nat)
    (hM : ∀ k p, M ≤ p → probe k p = false) :
    ∀ (c fuel : Nat) (st : BrowseState), st.scroll_fail_count + c = 10 → c ≤ fuel →
      M ≤ st.i →
      ∃ st', browseRun probe fuel st = (st', true) ∧ st'.emitted = st.emitted ∧
        st'.cycles = st.cycles + c := by
  intro c
  induction c with
  | zero =>
    intro fuel st h _ _
    exact ⟨st, browseRun_stop probe fuel st (by omega), rfl, by omega⟩
  | succ c ih =>
    intro fuel st h hf hi
    match fuel, hf with
    | fuel + 1, hf =>
      have hsfc : st.scroll_fail_count < 10 := by omega
      rw [browseRun_step probe fuel st hsfc]
      obtain ⟨tr, htr⟩ := outerStep_cycleFail probe st (by intro d _; exact hM _ _ hi)
      obtain ⟨st', h1, h2, h3⟩ := ih fuel (outerStep probe st)
        (by rw [htr]; simp; omega) (by omega) (by rw [htr]; simp; omega)
      refine ⟨st', h1, ?_, ?_⟩
      · rw [h2, htr]
      · rw [h3, htr]
        simp
        omega

theorem browseRun_succRun (probe : Nat → Nat → Bool) :
    ∀ (n fuel : Nat) (st : BrowseState), st.scroll_fail_count < 10 →
      (∀ k p, st.i ≤ p → p < st.i + n → probe k p = true) →
      ∃ tr, browseRun probe (n + fuel) st =
        browseRun probe fuel
          ({ st with i := st.i + n, attempts := st.attempts + n,
                     emitted := st.emitted ++ List.range' st.i n, trace := tr }) := by
  intro n
  induction n with
  | zero =>
    intro fuel st _ _
    refine ⟨st.trace, ?_⟩
    rw [Nat.zero_add]
    congr 1
    cases st
    simp
  | succ n ih =>
    intro fuel st hsfc htrue
    have h0 : probe st.attempts st.i = true := htrue st.attempts st.i (le_refl _) (by omega)
    rw [show n + 1 + fuel = (n + fuel) + 1 by omega]
    rw [browseRun_step probe (n + fuel) st hsfc, outerStep_found probe st h0]
    obtain ⟨tr, htr⟩ := ih fuel
      { st with emitted := st.emitted ++ [st.i],
                trace := st.trace ++ [Action.probe st.attempts st.i, Action.yieldPost st.i],
                attempts := st.attempts + 1,
                i := st.i + 1 }
      (by simpa using hsfc)
      (by intro k p h1 h2
          exact htrue k p (by simp at h1; omega) (by simp at h2 ⊢; omega))
    refine ⟨tr, ?_⟩
    rw [htr]
    congr 1
    cases st
    simp [List.range'_succ]
    omega

end Feedscraper
namespace Feedscraper

theorem browse_firstN_run (N : Nat) (probe : Nat → Nat → Bool) (fuel : Nat)
    (hfound : ∀ k p, 1 ≤ p → p ≤ N → probe k p = true)
    (hmiss : ∀ k p, N < p → probe k p = false)
    (hfuel : N + 10 ≤ fuel) :
    browse true probe fuel = BrowseOutcome.finished (List.range' 1 N) 10 := by
  obtain ⟨tr, htr⟩ := browseRun_succRun probe N (fuel - N) initState
    (by simp [initState])
    (by intro k p h1 h2
        refine hfound k p ?_ ?_
        · simpa [initState] using h1
        · simp [initState] at h2; omega)
  rw [show N + (fuel - N) = fuel by omega] at htr
  obtain ⟨st', h1, h2, h3⟩ := browseRun_allFail probe (N + 1)
    (by intro k p hp; exact hmiss k p (by omega)) 10 (fuel - N)
    { initState with i := initState.i + N, attempts := initState.attempts + N,
                     emitted := initState.emitted ++ List.range' initState.i N, trace := tr }
    (by simp [initState]) (by omega) (by simp [initState]; omega)
  rw [browse]
  simp only [if_pos]
  rw [htr, h1]
  simp [h2, h3, initState]
/-- C1: if `findItemSubtree` never succeeds (every element lookup fails),
`browse` terminates normally after exactly 10 unsuccessful scroll
cycles, having yielded zero items. -/
theorem browse_neverFound_ten_cycles (probe : Nat → Nat → Bool)
    (hprobe : ∀ k p, probe k p = false) (fuel : Nat) (hfuel : 10 ≤ fuel) :
    browse true probe fuel = BrowseOutcome.finished [] 10 := by
  obtain ⟨st', h1, h2, h3⟩ := browseRun_allFail probe 0
    (by intro k p _; exact hprobe k p) 10 fuel initState
    (by simp [initState]) hfuel (by simp [initState])
  rw [browse]
  simp only [if_pos]
  rw [h1]
  simp [h2, h3, initState]

theorem browse_neverFound_ten_cycles_witness :
    (∀ k p, neverFound k p = false) ∧ 10 ≤ 10 ∧
    browse true neverFound 10 = BrowseOutcome.finished [] 10 :=
  ⟨fun _ _ => rfl, by decide,
    browse_neverFound_ten_cycles neverFound (fun _ _ => rfl) 10 (by decide)⟩

/-- C2: within one harvest, the logical position advances by exactly 1
for every concluded attempt of the outer loop (one `outerStep`),
whether the probe succeeded immediately, succeeded on a load retry, or
exhausted all its load retries: the `finally` block increments `i`
unconditionally, so no position is retried forever. -/
theorem browse_position_advances_per_attempt (probe : Nat → Nat → Bool)
    (st : BrowseState) : (outerStep probe st).i = st.i + 1 := by
  rw [outerStep]
  cases hp : probe st.attempts st.i
  · simp only [Bool.false_eq_true, if_false]
    simp [loadLoop_i]
  · simp

/-- C3: a scroll cycle whose ten load retries all fail does not by
itself end the harvest: it leaves the emitted sequence unchanged,
increments only the scroll-fail counter, and as long as that counter is
still below 10 the outer loop goes on to run another iteration (a
further scroll cycle when its probe fails); only the scroll-fail
counter reaching 10 terminates the sequence. -/
theorem browse_inner_exhaustion_continues (probe : Nat → Nat → Bool)
    (st : BrowseState) (fuel : Nat)
    (hfail : ∀ d, d ≤ 10 → probe (st.attempts + d) st.i = false)
    (hsfc : st.scroll_fail_count + 1 < 10) :
    (outerStep probe st).cycles = st.cycles + 1 ∧
    (outerStep probe st).scroll_fail_count = st.scroll_fail_count + 1 ∧
    (outerStep probe st).emitted = st.emitted ∧
    (outerStep probe st).scroll_fail_count < 10 ∧
    browseRun probe (fuel + 1) st = browseRun probe fuel (outerStep probe st) := by
  obtain ⟨tr, htr⟩ := outerStep_cycleFail probe st hfail
  refine ⟨by rw [htr], by rw [htr], by rw [htr], by rw [htr]; simpa using hsfc,
    browseRun_step probe fuel st (by omega)⟩

theorem browse_inner_exhaustion_continues_witness :
    (∀ d, d ≤ 10 → neverFound (initState.attempts + d) initState.i = false) ∧
    initState.scroll_fail_count + 1 < 10 ∧
    ((outerStep neverFound initState).cycles = initState.cycles + 1 ∧
     (outerStep neverFound initState).scroll_fail_count = initState.scroll_fail_count + 1 ∧
     (outerStep neverFound initState).emitted = initState.emitted ∧
     (outerStep neverFound initState).scroll_fail_count < 10 ∧
     browseRun neverFound (0 + 1) initState = browseRun neverFound 0 (outerStep neverFound initState)) :=
  ⟨fun _ _ => rfl, by decide,
    browse_inner_exhaustion_continues neverFound initState 0 (fun _ _ => rfl) (by decide)⟩

/-- C4: when, inside a scroll cycle, the probe succeeds after `m ≥ 1`
failed load retries, the resulting state has both the scroll-fail and
the load-fail counter reset to 0 before the next probe, exactly the one
found item appended to the emitted sequence, and the logical position
advanced by exactly 1. -/
theorem browse_inner_success_resets (probe : Nat → Nat → Bool)
    (st : BrowseState) (m : Nat) (_hm1 : 1 ≤ m) (hm9 : m ≤ 9)
    (h0 : probe st.attempts st.i = false)
    (hfail : ∀ d, 1 ≤ d → d ≤ m → probe (st.attempts + d) st.i = false)
    (hsucc : probe (st.attempts + m + 1) st.i = true) :
    ∃ tr, outerStep probe st =
      { st with emitted := st.emitted ++ [st.i],
                attempts := st.attempts + m + 2,
                scroll_fail_count := 0,
                load_fail_count := 0,
                cycles := st.cycles + 1,
                i := st.i + 1,
                trace := tr } :=
  outerStep_innerSucc probe st m hm9 h0 hfail hsucc

theorem browse_inner_success_resets_witness :
    (1 ≤ 1 ∧ (fun k _ => decide (k = 2)) initState.attempts initState.i = false ∧
     (fun (k : Nat) (_ : Nat) => decide (k = 2)) (initState.attempts + 1 + 1) initState.i = true) ∧
    ∃ tr, outerStep (fun k _ => decide (k = 2)) initState =
      { initState with emitted := initState.emitted ++ [initState.i],
                       attempts := initState.attempts + 1 + 2,
                       scroll_fail_count := 0,
                       load_fail_count := 0,
                       cycles := initState.cycles + 1,
                       i := initState.i + 1,
                       trace := tr } :=
  ⟨⟨by decide, by decide, by decide⟩,
    browse_inner_success_resets (fun k _ => decide (k = 2)) initState 1
      (by decide) (by decide) (by decide)
      (by intro d h1 h2
          have hd : d = 1 := by omega
          subst hd
          rfl)
      (by decide)⟩

end Feedscraper
namespace Feedscraper

/-- C5: when the probe oracle makes positions 1..N (and no others)
succeed, `browse` emits exactly the positions 1, 2, ..., N in order —
N entries, strictly increasing, hence with no gaps and no repeats —
and then terminates normally after the 10 scroll-fail cycles. -/
theorem browse_yields_probed_positions (N : Nat) (probe : Nat → Nat → Bool) (fuel : Nat)
    (hfound : ∀ k p, 1 ≤ p → p ≤ N → probe k p = true)
    (hmiss : ∀ k p, N < p → probe k p = false)
    (hfuel : N + 10 ≤ fuel) :
    browse true probe fuel = BrowseOutcome.finished (List.range' 1 N) 10 ∧
    (List.range' 1 N).length = N ∧ List.Pairwise (· < ·) (List.range' 1 N) :=
  ⟨browse_firstN_run N probe fuel hfound hmiss hfuel, by simp,
    List.pairwise_lt_range' 1 N⟩

theorem browse_yields_probed_positions_witness :
    ((∀ k p, 1 ≤ p → p ≤ 2 → firstN 2 k p = true) ∧
     (∀ k p, 2 < p → firstN 2 k p = false) ∧ 2 + 10 ≤ 12) ∧
    (browse true (firstN 2) 12 = BrowseOutcome.finished (List.range' 1 2) 10 ∧
     (List.range' 1 2).length = 2 ∧ List.Pairwise (· < ·) (List.range' 1 2)) :=
  ⟨⟨by intro k p h1 h2; simpa [firstN] using h2,
    by intro k p h; simp [firstN]; omega, by decide⟩,
    browse_yields_probed_positions 2 (firstN 2) 12
      (by intro k p h1 h2; simpa [firstN] using h2)
      (by intro k p h; simp [firstN]; omega) (by decide)⟩

/-- C6: a feed presenting exactly 3 renderable items (positions 1..3
always found, later positions never found) yields exactly the 3 records
at positions 1, 2, 3 and then terminates normally once the scroll-fail
threshold is exhausted. -/
theorem browse_three_item_feed (probe : Nat → Nat → Bool) (fuel : Nat)
    (hfound : ∀ k p, 1 ≤ p → p ≤ 3 → probe k p = true)
    (hmiss : ∀ k p, 3 < p → probe k p = false)
    (hfuel : 13 ≤ fuel) :
    browse true probe fuel = BrowseOutcome.finished [1, 2, 3] 10 ∧
    ([1, 2, 3] : List Nat).length = 3 := by
  have h := browse_firstN_run 3 probe fuel hfound hmiss (by omega)
  rw [show List.range' 1 3 = [1, 2, 3] from rfl] at h
  exact ⟨h, rfl⟩

theorem browse_three_item_feed_witness :
    ((∀ k p, 1 ≤ p → p ≤ 3 → firstN 3 k p = true) ∧
     (∀ k p, 3 < p → firstN 3 k p = false) ∧ 13 ≤ 13) ∧
    (browse true (firstN 3) 13 = BrowseOutcome.finished [1, 2, 3] 10 ∧
     ([1, 2, 3] : List Nat).length = 3) :=
  ⟨⟨by intro k p h1 h2; simpa [firstN] using h2,
    by intro k p h; simp [firstN]; omega, by decide⟩,
    browse_three_item_feed (firstN 3) 13
      (by intro k p h1 h2; simpa [firstN] using h2)
      (by intro k p h; simp [firstN]; omega) (by decide)⟩

/-- C7: when the top-level feed container cannot be located at harvest
start, the harvest aborts immediately with the diagnostic message of
the failed lookup (the code prints it and calls `exit(1)`), yields no
item, and in particular never produces a normally finished sequence. -/
theorem browse_missing_feed_aborts (probe : Nat → Nat → Bool) (fuel : Nat) :
    browse false probe fuel = BrowseOutcome.aborted feedMissingDiag ∧
    ∀ ems c, browse false probe fuel ≠ BrowseOutcome.finished ems c := by
  refine ⟨rfl, ?_⟩
  intro ems c h
  simp [browse] at h

/-- C8: each `browse` invocation is an independent replay: the source
keeps its position counter and both retry counters as locals of the
generator body, so two invocations on the same session are the same
pure function of the session's probe responses, and every invocation
starts from the re-seeded state — position 1, nothing emitted, a fresh
scroll to the top of the page as its first session interaction, followed
by its first probe at position 1 with the attempt cursor at 0. -/
theorem browse_invocations_independent (probe : Nat → Nat → Bool) (fuel : Nat) :
    (browseTwice probe fuel).1 = (browseTwice probe fuel).2 ∧
    initState.i = 1 ∧ initState.emitted = [] ∧
    initState.trace = [Action.scrollToTop] ∧
    List.take 2 ((browseRun probe (fuel + 1) initState).1).trace
      = [Action.scrollToTop, Action.probe 0 1] := by
  refine ⟨rfl, rfl, rfl, rfl, ?_⟩
  rw [browseRun_step probe fuel initState (by simp [initState])]
  obtain ⟨t, ht⟩ := browseRun_trace probe fuel (outerStep probe initState)
  obtain ⟨t', ht'⟩ := outerStep_trace probe initState
  rw [ht, ht']
  simp [initState]

end Feedscraper
namespace Feedscraper

/-- C9 counterexample: a rendered page state with one advertiser
element whose text is the single line "ad" makes `get_sidebar_ads`
fail — `SidebarAd(*lst)` is applied to a one-element line list and
raises a `TypeError` — refuting "never fails for any rendered page
state". -/
theorem get_sidebar_ads_claim_counterexample :
    get_sidebar_ads [['a', 'd']] = Except.error sidebarAdArityError := by rfl

/-- C9 (amended): `get_sidebar_ads` returns the empty sequence when
zero ad elements are rendered, and it succeeds (returning one record
per element) whenever every rendered ad element's text splits into
exactly two lines; with any element text that does not, the record
unpacking fails instead. -/
theorem get_sidebar_ads_empty_and_two_line :
    get_sidebar_ads [] = Except.ok [] ∧
    ∀ adTexts : List (List Char), (∀ t ∈ adTexts, (splitlines t).length = 2) →
      ∃ ads, get_sidebar_ads adTexts = Except.ok ads ∧
        ads.length = adTexts.length := by
  refine ⟨rfl, ?_⟩
  intro adTexts h
  induction adTexts with
  | nil => exact ⟨[], rfl, rfl⟩
  | cons t ts ih =>
    have h2 : (splitlines t).length = 2 := h t (by simp)
    obtain ⟨a, b, hab⟩ := List.length_eq_two.mp h2
    obtain ⟨ads, hads, hlen⟩ := ih (by intro x hx; exact h x (by simp [hx]))
    refine ⟨{ text := a, link := b } :: ads, ?_, by simp [hlen]⟩
    rw [get_sidebar_ads] at hads ⊢
    simp only [List.map_cons, List.mapM_cons, hab]
    rw [hads]
    rfl

theorem get_sidebar_ads_empty_and_two_line_witness :
    (∀ t ∈ [['x', Char.ofNat 10, 'y']], (splitlines t).length = 2) ∧
    ∃ ads, get_sidebar_ads [['x', Char.ofNat 10, 'y']] = Except.ok ads ∧
      ads.length = ([['x', Char.ofNat 10, 'y']] : List (List Char)).length :=
  ⟨by decide, get_sidebar_ads_empty_and_two_line.2 [['x', Char.ofNat 10, 'y']] (by decide)⟩

/-- C10: `browse` is deterministic with respect to the Document
Session's responses: two probe scripts that agree on every (attempt,
position) pair drive the harvesting loop to identical runs — the same
final state (emitted positions, counters and interaction trace) and the
same outcome.  The embedded loop is a pure function of the script, so
no nondeterminism beyond the session's responses exists. -/
theorem browse_deterministic_in_probe_script (p1 p2 : Nat → Nat → Bool)
    (fe : Bool) (fuel : Nat) (h : ∀ k i, p1 k i = p2 k i) :
    browseRun p1 fuel initState = browseRun p2 fuel initState ∧
    browse fe p1 fuel = browse fe p2 fuel := by
  have hp : p1 = p2 := funext fun k => funext fun i => h k i
  rw [hp]
  exact ⟨rfl, rfl⟩

theorem browse_deterministic_in_probe_script_witness :
    (∀ k i, (fun (_ : Nat) (_ : Nat) => true) k i = (fun (k : Nat) (_ : Nat) => decide (k = k)) k i) ∧
    (browseRun (fun _ _ => true) 1 initState = browseRun (fun k _ => decide (k = k)) 1 initState ∧
     browse true (fun _ _ => true) 1 = browse true (fun k _ => decide (k = k)) 1) :=
  ⟨by intro k i; simp,
    browse_deterministic_in_probe_script (fun _ _ => true) (fun k _ => decide (k = k))
      true 1 (by intro k i; simp)⟩

end Feedscraper
